import Mathlib

/-!
Verification of the `springcraft` package (modules `interaction.py` and
`anm.py`) against its natural-language specification.

The Python source is shallowly embedded:

* Floating point numbers are modelled as `Rat` (the algebraic structure of
  the computations does not rely on rounding); the transcendental part of
  `normal_mode` (`np.sin`, `np.sqrt`) is modelled over `ℝ`.
* Numpy arrays whose shape matters dynamically (the cached matrices of the
  `ANM` class) are modelled as `NDArray`, a shape list plus a flat
  (C-order) data list.  Statically well-shaped values (coordinates,
  adjacency matrices) are modelled as functions out of `Fin`.
* Raising an exception is modelled as `Except.error`; the dynamic parts of
  Python error messages (formatted shape tuples) are elided, constant
  message text is kept.
* External capabilities (biotite's cell list, `np.linalg.pinv`,
  `np.linalg.eigh`, residue-mass lookup) are parameters of the model,
  mirroring the spec's treatment of them as external contracts.
-/

namespace Springcraft

/-- A 3-vector of rational coordinates (one row of an `(n,3)` numpy array). -/
abbrev V3 := Fin 3 → Rat

/-- The force-field capability contract (`natoms`, `cutoff_distance`,
`force_constant`), as used by `interaction.py`. -/
structure ForceField where
  natoms : Option Nat
  cutoff_distance : Option Rat
  force_constant : Nat → Nat → Rat → Rat

/-- An optional override pair list (`contact_pair_off` / `contact_pair_on`);
`none` models passing Python `None`. -/
abbrev PairList (n : Nat) := Option (List (Fin n × Fin n))

/-- Displacement vector for the atom pair `(i, j)`.  In the source the two
adjacency branches obtain it from `struc.index_displacement` resp.
`struc.displacement`; the two differ only in sign, which is unobservable
(the vector enters the matrices only through products of two components
and through the squared distance), so a single convention is used here. -/
def dispVec {n : Nat} (coord : Fin n → V3) (i j : Fin n) : V3 :=
  fun a => coord j a - coord i a

/-- Squared distance between atoms `i` and `j`. -/
def sqDist {n : Nat} (coord : Fin n → V3) (i j : Fin n) : Rat :=
  ∑ a, dispVec coord i j a ^ 2

/-- Candidate adjacency before the diagonal is cleared
(`_prepare_values_for_interaction_matrix`, cutoff dispatch): no cutoff
gives the dense matrix; with a cutoff either the external cell list is
consulted (`use_cell_list`) or all pairwise squared distances are
thresholded by `cutoff²`. -/
def baseAdjacency {n : Nat} (coord : Fin n → V3) (ff : ForceField)
    (use_cell_list : Bool) (cellAdj : Fin n → Fin n → Bool) :
    Fin n → Fin n → Bool :=
  match ff.cutoff_distance with
  | none => fun _ _ => true
  | some c =>
    if use_cell_list then cellAdj
    else fun i j => decide (sqDist coord i j ≤ c ^ 2)

/-- The effect of `np.fill_diagonal(adj_matrix, False)`. -/
def diagonalCleared {n : Nat} (adjacency : Fin n → Fin n → Bool) :
    Fin n → Fin n → Bool :=
  fun i j => if i = j then false else adjacency i j

/-- The guard expression
`if (contact_pair_off[:,0]) == (contact_pair_off[:,1]).any():` of
`_patch_adjacency_matrix`, with numpy semantics: the right-hand side is the
scalar truthiness of the second column (a bool, upcast to `0`/`1` for the
comparison), the comparison is elementwise over the first column, and using
the resulting array as an `if` condition succeeds only when it has exactly
one element. -/
def offColumnCheck {n : Nat} (offL : List (Fin n × Fin n)) :
    Except String Bool :=
  let anyVal : Nat := if offL.any (fun p => p.2.val != 0) then 1 else 0
  match offL.map (fun p => p.1.val == anyVal) with
  | [] => Except.error "ValueError: the truth value of an empty array is ambiguous"
  | [b] => Except.ok b
  | _ => Except.error "ValueError: the truth value of an array with more than one element is ambiguous"

/-- Embedding of `_patch_adjacency_matrix`: clear the `off` pairs, then, if
an `on` list is given, run the (buggy) guard above — note it indexes
`contact_pair_off`, which is a `TypeError` when that is `None` — and set
the `on` pairs. -/
def _patch_adjacency_matrix {n : Nat} (matrix : Fin n → Fin n → Bool)
    (contact_pair_off contact_pair_on : PairList n) :
    Except String (Fin n → Fin n → Bool) :=
  let m1 : Fin n → Fin n → Bool :=
    match contact_pair_off with
    | none => matrix
    | some offL => fun i j => if (i, j) ∈ offL then false else matrix i j
  match contact_pair_on with
  | none => Except.ok m1
  | some onL =>
    match contact_pair_off with
    | none => Except.error "TypeError: NoneType object is not subscriptable"
    | some offL => do
      let b ← offColumnCheck offL
      if b then
        Except.error "Cannot turn on interaction of an atom with itself"
      else
        Except.ok (fun i j => if (i, j) ∈ onL then true else m1 i j)

/-- The `natoms` validation of `_prepare_values_for_interaction_matrix`
(the `(n,3)` coordinate-shape validation is inherent in the `Fin n → V3`
representation). -/
def natomsCheck (n : Nat) (ff : ForceField) : Except String Unit :=
  match ff.natoms with
  | none => Except.ok ()
  | some m =>
    if n ≠ m then
      Except.error "ValueError: coordinate count does not match force field atom count"
    else Except.ok ()

/-- Final adjacency matrix produced by
`_prepare_values_for_interaction_matrix`: validation, cutoff dispatch,
diagonal clearing, override patching. -/
def resolveAdjacency {n : Nat} (coord : Fin n → V3) (ff : ForceField)
    (use_cell_list : Bool) (cellAdj : Fin n → Fin n → Bool)
    (contact_pair_off contact_pair_on : PairList n) :
    Except String (Fin n → Fin n → Bool) := do
  natomsCheck n ff
  _patch_adjacency_matrix
    (diagonalCleared (baseAdjacency coord ff use_cell_list cellAdj))
    contact_pair_off contact_pair_on

/-- Row-major enumeration of the `True` entries of an adjacency matrix
(`np.where(adj_matrix)`). -/
def pairsOfAdjacency {n : Nat} (adj : Fin n → Fin n → Bool) :
    List (Fin n × Fin n) :=
  (List.finRange n).flatMap fun i =>
    (List.finRange n).filterMap fun j =>
      if adj i j then some (i, j) else none

/-- The `pairs` output of `_prepare_values_for_interaction_matrix`. -/
def interactionPairs {n : Nat} (coord : Fin n → V3) (ff : ForceField)
    (use_cell_list : Bool) (cellAdj : Fin n → Fin n → Bool)
    (contact_pair_off contact_pair_on : PairList n) :
    Except String (List (Fin n × Fin n)) := do
  let adj ← resolveAdjacency coord ff use_cell_list cellAdj
    contact_pair_off contact_pair_on
  pure (pairsOfAdjacency adj)

/-- Whether a pair occurs in the pair list of a successful adjacency
computation (`false` when the computation failed). -/
def pairsContain {n : Nat} (r : Except String (List (Fin n × Fin n)))
    (p : Fin n × Fin n) : Bool :=
  match r with
  | Except.ok ps => decide (p ∈ ps)
  | Except.error _ => false

/-- Off-diagonal superelement assigned by `compute_hessian` for a pair of
the adjacency matrix:
`-force_constant / sq_dist * disp[:, :, None] * disp[:, None, :]`;
entries not covered by a pair stay at their `np.zeros` initialisation. -/
def offDiagBlock {n : Nat} (coord : Fin n → V3) (ff : ForceField)
    (adj : Fin n → Fin n → Bool) (i j : Fin n) : Fin 3 → Fin 3 → Rat :=
  if adj i j = true then
    fun a b =>
      -(ff.force_constant i.val j.val (sqDist coord i j)) / sqDist coord i j
        * (dispVec coord i j a * dispVec coord i j b)
  else fun _ _ => 0

/-- Superelement `(i, j)` of the final Hessian:
`hessian[indices, indices] = -np.sum(hessian, axis=0)` overwrites each
diagonal block with the negated sum over the first axis (the block column),
taken over the tensor as filled by the pair assignment. -/
def hessBlock {n : Nat} (coord : Fin n → V3) (ff : ForceField)
    (adj : Fin n → Fin n → Bool) (i j : Fin n) : Fin 3 → Fin 3 → Rat :=
  if i = j then fun a b => -(∑ k, offDiagBlock coord ff adj k i a b)
  else offDiagBlock coord ff adj i j

/-- Embedding of `compute_hessian`.  The returned matrix is indexed by
`(atom, axis)` pairs; the source's final
`np.transpose(hessian, (0, 2, 1, 3)).reshape(n*3, n*3)` maps block tensor
entry `(i, j, a, b)` to flat entry `(3i+a, 3j+b)`, i.e. exactly the
lexicographic order of the `(atom, axis)` index used here
(`[x1, y1, z1, ..., xn, yn, zn]`). -/
def compute_hessian {n : Nat} (coord : Fin n → V3) (ff : ForceField)
    (use_cell_list : Bool) (cellAdj : Fin n → Fin n → Bool)
    (contact_pair_off contact_pair_on : PairList n) :
    Except String ((Fin n × Fin 3) → (Fin n × Fin 3) → Rat) := do
  let adj ← resolveAdjacency coord ff use_cell_list cellAdj
    contact_pair_off contact_pair_on
  pure (fun p q => hessBlock coord ff adj p.1 q.1 p.2 q.2)

end Springcraft

deriving instance DecidableEq for Except

namespace Springcraft

/-- Concrete data for the override claims: two atoms a unit apart. -/
def coordC1 : Fin 2 → V3 := fun i => if i.val = 0 then ![0, 0, 0] else ![1, 0, 0]

/-- Force field with cutoff `2` and unit force constants. -/
def ffC1 : ForceField := ⟨none, some 2, fun _ _ _ => 1⟩

/-- Override list containing only the pair `(0, 1)`. -/
def pairList01 : List (Fin 2 × Fin 2) := [(0, 1)]

/-- Membership in the pair list of an adjacency matrix is exactly a `true`
adjacency entry. -/
theorem mem_pairsOfAdjacency {n : Nat} (adj : Fin n → Fin n → Bool)
    (i j : Fin n) : (i, j) ∈ pairsOfAdjacency adj ↔ adj i j = true := by
  constructor
  · intro h
    simp only [pairsOfAdjacency, List.mem_flatMap, List.mem_filterMap] at h
    obtain ⟨i', _, j', _, hij⟩ := h
    by_cases hadj : adj i' j' = true
    · simp only [hadj, if_true, Option.some.injEq, Prod.mk.injEq] at hij
      obtain ⟨h1, h2⟩ := hij
      subst h1; subst h2
      exact hadj
    · simp [hadj] at hij
  · intro h
    simp only [pairsOfAdjacency, List.mem_flatMap, List.mem_filterMap]
    exact ⟨i, List.mem_finRange i, j, List.mem_finRange j, by simp [h]⟩

/-- When `_patch_adjacency_matrix` succeeds with both override lists given,
every pair of the on-list is switched on in the result, whatever the
off-list and the incoming matrix said about it. -/
theorem patch_ok_on_mem {n : Nat} (matrix : Fin n → Fin n → Bool)
    (offL onL : List (Fin n × Fin n)) (m' : Fin n → Fin n → Bool)
    (h : _patch_adjacency_matrix matrix (some offL) (some onL) = Except.ok m')
    (p : Fin n × Fin n) (hp : p ∈ onL) : m' p.1 p.2 = true := by
  simp only [_patch_adjacency_matrix] at h
  cases hc : offColumnCheck offL with
  | error e => rw [hc] at h; exact absurd h (by simp [Bind.bind, Except.bind])
  | ok b =>
    rw [hc] at h
    cases b with
    | true => exact absurd h (by simp [Bind.bind, Except.bind])
    | false =>
      simp only [Bind.bind, Except.bind, Bool.false_eq_true, if_false,
        Except.ok.injEq] at h
      subst h
      simp [hp]

/-- C1 (amended): when both override lists are given and the adjacency
computation succeeds, every pair listed in the force-on overrides is
present in the resulting pair set, even when the same pair is also listed
in the force-off overrides: the off overrides are applied first and the on
overrides afterwards, so for a shared pair the on override wins. -/
theorem C1_on_override_wins {n : Nat} (coord : Fin n → V3) (ff : ForceField)
    (use_cell_list : Bool) (cellAdj : Fin n → Fin n → Bool)
    (offL onL : List (Fin n × Fin n)) (p : Fin n × Fin n) (hp : p ∈ onL)
    (hok : (interactionPairs coord ff use_cell_list cellAdj
      (some offL) (some onL)).isOk = true) :
    pairsContain (interactionPairs coord ff use_cell_list cellAdj
      (some offL) (some onL)) p = true := by
  unfold interactionPairs resolveAdjacency at hok ⊢
  cases hnat : natomsCheck n ff with
  | error e =>
    rw [hnat] at hok
    simp [Bind.bind, Except.bind, Except.isOk, Except.toBool] at hok
  | ok u =>
    rw [hnat] at hok
    cases hpatch : _patch_adjacency_matrix
        (diagonalCleared (baseAdjacency coord ff use_cell_list cellAdj))
        (some offL) (some onL) with
    | error e =>
      rw [hpatch] at hok
      simp [Bind.bind, Except.bind, Except.isOk, Except.toBool] at hok
    | ok m' =>
      simp only [Bind.bind, Except.bind, pure, Except.pure, pairsContain,
        decide_eq_true_eq]
      exact (mem_pairsOfAdjacency m' p.1 p.2).mpr
        (patch_ok_on_mem _ _ _ _ hpatch p hp)

/-- C1 witness: a concrete run of `C1_on_override_wins` on two atoms a unit
distance apart, with the pair `(0, 1)` in both override lists. -/
theorem C1_on_override_wins_witness :
    ((0, 1) : Fin 2 × Fin 2) ∈ pairList01 ∧
    (interactionPairs coordC1 ffC1 false (fun _ _ => false)
      (some pairList01) (some pairList01)).isOk = true ∧
    pairsContain (interactionPairs coordC1 ffC1 false (fun _ _ => false)
      (some pairList01) (some pairList01)) (0, 1) = true :=
  ⟨by decide, by decide,
    C1_on_override_wins coordC1 ffC1 false (fun _ _ => false)
      pairList01 pairList01 (0, 1) (by decide) (by decide)⟩

/-- C1 counterexample: with `contact_pair_off = contact_pair_on = [(0, 1)]`
on two atoms within the cutoff, the pair `(0, 1)` is PRESENT in the
resulting pair set — the claim says an off-listed pair is always absent. -/
theorem C1_off_override_loses_counterexample :
    ((0, 1) : Fin 2 × Fin 2) ∈ pairList01 ∧
    sqDist coordC1 0 1 ≤ (2 : Rat) ^ 2 ∧
    pairsContain (interactionPairs coordC1 ffC1 false (fun _ _ => false)
      (some pairList01) (some pairList01)) (0, 1) = true := by
  refine ⟨by decide, by norm_num [sqDist, dispVec, coordC1, Fin.sum_univ_three],
    by decide⟩

/-- C3: the self-pair validation of `_patch_adjacency_matrix` is wrong.
With `contact_pair_off = [(1, 2)]` and `contact_pair_on = [(0, 1)]` — no
self-pair anywhere — the code raises
`Cannot turn on interaction of an atom with itself`, while with
`contact_pair_off = [(0, 1)]` and a genuine self-pair `(1, 1)` in
`contact_pair_on` it raises nothing: the guard compares the first column
of `contact_pair_off` against the truthiness of its second column instead
of comparing the two columns of `contact_pair_on`. -/
theorem C3_selfpair_check_bug :
    (_patch_adjacency_matrix (fun _ _ => true)
      (some [((1 : Fin 3), (2 : Fin 3))]) (some [((0 : Fin 3), (1 : Fin 3))])
      = Except.error "Cannot turn on interaction of an atom with itself") ∧
    (_patch_adjacency_matrix (fun _ _ => true)
      (some [((0 : Fin 3), (1 : Fin 3))])
      (some [((1 : Fin 3), (1 : Fin 3))])).isOk = true := by
  refine ⟨by decide, by decide⟩

/-- Squared distance is symmetric in the pair. -/
theorem sqDist_symm {n : Nat} (coord : Fin n → V3) (i j : Fin n) :
    sqDist coord i j = sqDist coord j i := by
  unfold sqDist dispVec
  apply Finset.sum_congr rfl
  intro a _
  ring

/-- The candidate adjacency is symmetric as soon as the external cell-list
adjacency is (the dense and the brute-force branch are symmetric anyway). -/
theorem baseAdjacency_symm {n : Nat} (coord : Fin n → V3) (ff : ForceField)
    (use_cell_list : Bool) (cellAdj : Fin n → Fin n → Bool)
    (hcell : ∀ i j, cellAdj i j = cellAdj j i) (i j : Fin n) :
    baseAdjacency coord ff use_cell_list cellAdj i j
      = baseAdjacency coord ff use_cell_list cellAdj j i := by
  unfold baseAdjacency
  cases ff.cutoff_distance with
  | none => rfl
  | some c =>
    cases use_cell_list with
    | false => simp [sqDist_symm coord i j]
    | true => simp [hcell i j]

/-- Clearing the diagonal preserves symmetry. -/
theorem diagonalCleared_symm {n : Nat} (adj : Fin n → Fin n → Bool)
    (h : ∀ i j, adj i j = adj j i) (i j : Fin n) :
    diagonalCleared adj i j = diagonalCleared adj j i := by
  unfold diagonalCleared
  by_cases hij : i = j
  · subst hij; rfl
  · rw [if_neg hij, if_neg (Ne.symm hij), h i j]

/-- Swapping the atom pair leaves an off-diagonal superelement unchanged:
the adjacency and the force constant are symmetric by hypothesis, the
squared distance is symmetric, and the sign flip of the displacement
cancels in the product of two components. -/
theorem offDiagBlock_swap {n : Nat} (coord : Fin n → V3) (ff : ForceField)
    (adj : Fin n → Fin n → Bool) (hadj : ∀ i j, adj i j = adj j i)
    (hfc : ∀ i j d, ff.force_constant i j d = ff.force_constant j i d)
    (i j : Fin n) (a b : Fin 3) :
    offDiagBlock coord ff adj i j a b = offDiagBlock coord ff adj j i a b := by
  unfold offDiagBlock
  rw [hadj i j]
  by_cases h : adj j i = true
  · simp only [h, if_true]
    rw [sqDist_symm coord i j, hfc i.val j.val]
    unfold dispVec
    ring
  · simp [h]

/-- Each superelement is itself a symmetric 3×3 matrix (outer product of a
vector with itself). -/
theorem offDiagBlock_transpose {n : Nat} (coord : Fin n → V3)
    (ff : ForceField) (adj : Fin n → Fin n → Bool) (i j : Fin n)
    (a b : Fin 3) :
    offDiagBlock coord ff adj i j a b = offDiagBlock coord ff adj i j b a := by
  unfold offDiagBlock
  by_cases h : adj i j = true
  · simp only [h, if_true]; ring
  · simp [h]

/-- With a cleared diagonal the `(i, i)` entries of the off-diagonal layer
vanish. -/
theorem offDiagBlock_diag_zero {n : Nat} (coord : Fin n → V3)
    (ff : ForceField) (adj : Fin n → Fin n → Bool)
    (hdiag : ∀ i, adj i i = false) (i : Fin n) (a b : Fin 3) :
    offDiagBlock coord ff adj i i a b = 0 := by
  unfold offDiagBlock
  simp [hdiag i]

/-- Full symmetry of the assembled Hessian blocks. -/
theorem hessBlock_symm {n : Nat} (coord : Fin n → V3) (ff : ForceField)
    (adj : Fin n → Fin n → Bool) (hadj : ∀ i j, adj i j = adj j i)
    (hfc : ∀ i j d, ff.force_constant i j d = ff.force_constant j i d)
    (i j : Fin n) (a b : Fin 3) :
    hessBlock coord ff adj i j a b = hessBlock coord ff adj j i b a := by
  unfold hessBlock
  by_cases hij : i = j
  · subst hij
    rw [if_pos rfl]
    show -(∑ k, offDiagBlock coord ff adj k i a b)
      = -(∑ k, offDiagBlock coord ff adj k i b a)
    exact neg_inj.mpr (Finset.sum_congr rfl
      fun k _ => offDiagBlock_transpose coord ff adj k i a b)
  · rw [if_neg hij, if_neg (Ne.symm hij),
      offDiagBlock_swap coord ff adj hadj hfc i j a b,
      offDiagBlock_transpose coord ff adj j i a b]

/-- Translational invariance: each block row of the Hessian sums to the
zero 3×3 matrix. -/
theorem hessBlock_rowsum {n : Nat} (coord : Fin n → V3) (ff : ForceField)
    (adj : Fin n → Fin n → Bool) (hadj : ∀ i j, adj i j = adj j i)
    (hfc : ∀ i j d, ff.force_constant i j d = ff.force_constant j i d)
    (hdiag : ∀ i, adj i i = false) (i : Fin n) (a b : Fin 3) :
    ∑ j, hessBlock coord ff adj i j a b = 0 := by
  rw [← Finset.add_sum_erase _ _ (Finset.mem_univ i)]
  have h1 : hessBlock coord ff adj i i a b
      = -(∑ k ∈ Finset.univ.erase i, offDiagBlock coord ff adj k i a b) := by
    unfold hessBlock
    rw [if_pos rfl]
    show -(∑ k, offDiagBlock coord ff adj k i a b)
      = -(∑ k ∈ Finset.univ.erase i, offDiagBlock coord ff adj k i a b)
    congr 1
    rw [← Finset.add_sum_erase _ _ (Finset.mem_univ i),
      offDiagBlock_diag_zero coord ff adj hdiag i a b, zero_add]
  have h2 : ∑ j ∈ Finset.univ.erase i, hessBlock coord ff adj i j a b
      = ∑ k ∈ Finset.univ.erase i, offDiagBlock coord ff adj k i a b := by
    apply Finset.sum_congr rfl
    intro j hj
    have hji : ¬ i = j := fun h => (Finset.mem_erase.mp hj).1 h.symm
    unfold hessBlock
    rw [if_neg hji]
    exact offDiagBlock_swap coord ff adj hadj hfc i j a b
  rw [h1, h2]
  ring

/-- C4: for every valid coordinate set and force field whose
`force_constant` is symmetric in the pair (and a symmetric external
cell-list adjacency, when one is used), `compute_hessian` succeeds and the
computed Hessian is symmetric with every 3×3 row-block summing to the zero
matrix (it annihilates uniform translations).  The pairwise-distinct
coordinate hypothesis delimits the inputs on which the floating-point
division of the source is defined. -/
theorem C4_hessian_symm_rowsum_zero {n : Nat} (coord : Fin n → V3)
    (ff : ForceField) (use_cell_list : Bool)
    (cellAdj : Fin n → Fin n → Bool)
    (hnat : natomsCheck n ff = Except.ok ())
    (hfc : ∀ i j d, ff.force_constant i j d = ff.force_constant j i d)
    (hcell : ∀ i j, cellAdj i j = cellAdj j i)
    (hdist : ∀ i j : Fin n, i ≠ j → sqDist coord i j ≠ 0) :
    ∃ H, compute_hessian coord ff use_cell_list cellAdj none none
        = Except.ok H
      ∧ (∀ p q, H p q = H q p)
      ∧ (∀ (i : Fin n) (a b : Fin 3), ∑ j, H (i, a) (j, b) = 0) := by
  have hadj : ∀ i j,
      diagonalCleared (baseAdjacency coord ff use_cell_list cellAdj) i j
        = diagonalCleared (baseAdjacency coord ff use_cell_list cellAdj) j i :=
    diagonalCleared_symm _ (baseAdjacency_symm coord ff use_cell_list cellAdj hcell)
  have hdiag : ∀ i,
      diagonalCleared (baseAdjacency coord ff use_cell_list cellAdj) i i = false := by
    intro i; simp [diagonalCleared]
  refine ⟨fun p q =>
    hessBlock coord ff
      (diagonalCleared (baseAdjacency coord ff use_cell_list cellAdj))
      p.1 q.1 p.2 q.2, ?_, ?_, ?_⟩
  · unfold compute_hessian resolveAdjacency
    rw [hnat]
    simp [Bind.bind, Except.bind, pure, Except.pure, _patch_adjacency_matrix]
  · intro p q
    exact hessBlock_symm coord ff _ hadj hfc p.1 q.1 p.2 q.2
  · intro i a b
    exact hessBlock_rowsum coord ff _ hadj hfc hdiag i a b

/-- Force field for the C4 witness: a fixed atom count of two, no cutoff,
unit force constants. -/
def ffC4 : ForceField := ⟨some 2, none, fun _ _ _ => 1⟩

/-- C4 witness: the guarantees of `C4_hessian_symm_rowsum_zero` on a
concrete two-atom system. -/
theorem C4_hessian_symm_rowsum_zero_witness :
    ∃ H, compute_hessian coordC1 ffC4 true (fun _ _ => false) none none
        = Except.ok H
      ∧ (∀ p q, H p q = H q p)
      ∧ (∀ (i : Fin 2) (a b : Fin 3), ∑ j, H (i, a) (j, b) = 0) :=
  C4_hessian_symm_rowsum_zero coordC1 ffC4 true (fun _ _ => false)
    rfl (fun _ _ _ => rfl) (fun _ _ => rfl)
    (by
      intro i j hij
      fin_cases i <;> fin_cases j <;>
        simp_all [sqDist, dispVec, coordC1, Fin.sum_univ_three])

/-- A numpy array: a shape and the flat C-order data.  Only the cached
matrices of the `ANM` class need this dynamically-shaped representation
(the `mass_weights` cache can legitimately hold a 1-D array or a 2-D
matrix depending on how it was populated). -/
structure NDArray where
  shape : List Nat
  data : List Rat
deriving DecidableEq

/-- The mutable cache attributes an `ANM` instance holds after
`__init__` (each starts out as Python `None`). -/
structure ANMState where
  mw_cache : Option NDArray
  hessian_cache : Option NDArray
  hessian_mw_cache : Option NDArray
  covariance_cache : Option NDArray
  covariance_mw_cache : Option NDArray
deriving DecidableEq

/-- The fresh state produced by `ANM.__init__`. -/
def initState : ANMState :=
  { mw_cache := none, hessian_cache := none, hessian_mw_cache := none
    covariance_cache := none, covariance_mw_cache := none }

/-- The immutable data of an `ANM` instance together with its external
capabilities: coordinates, force field, the cell-list adjacency, the
residue-mass lookup (`struc.info.mass` per atom) and the pseudo-inverse
(`np.linalg.pinv(·, hermitian=True, rcond=1e-6)`). -/
structure ANMModel (n : Nat) where
  coord : Fin n → V3
  ff : ForceField
  use_cell_list : Bool
  cellAdj : Fin n → Fin n → Bool
  resMass : Fin n → Rat
  pinv : NDArray → NDArray

/-- Shape validation shared by all setters
(`if value.shape != (len(self._coord) * 3, len(self._coord) * 3)`); the
formatted text of the raised `IndexError` is elided. -/
def shapeCheck (n : Nat) (value : NDArray) : Except String Unit :=
  if value.shape = [n * 3, n * 3] then Except.ok ()
  else Except.error "IndexError: expected shape (3n, 3n)"

/-- Embedding of the `hessian` setter: validate the shape, store the
value, invalidate the cached covariance. -/
def hessianSet (n : Nat) (value : NDArray) (s : ANMState) :
    Except String ANMState := do
  shapeCheck n value
  pure { s with hessian_cache := some value, covariance_cache := none }

/-- Embedding of the `covariance` setter: validate the shape, store the
value, invalidate the cached Hessian. -/
def covarianceSet (n : Nat) (value : NDArray) (s : ANMState) :
    Except String ANMState := do
  shapeCheck n value
  pure { s with covariance_cache := some value, hessian_cache := none }

/-- Embedding of the `mass_weights` setter: validate the shape, store the
value, invalidate both mass-weighted caches. -/
def massWeightsSet (n : Nat) (value : NDArray) (s : ANMState) :
    Except String ANMState := do
  shapeCheck n value
  pure { s with mw_cache := some value, hessian_mw_cache := none
                covariance_mw_cache := none }

/-- Embedding of the effective `hessian_mw` setter (source lines
`@covariance_mw.setter def hessian_mw`): validate the shape, store the
value in the `_covariance_mw` attribute, invalidate `_mass_weights` and
`_hessian_mw`. -/
def hessianMwSet (n : Nat) (value : NDArray) (s : ANMState) :
    Except String ANMState := do
  shapeCheck n value
  pure { s with covariance_mw_cache := some value, mw_cache := none
                hessian_mw_cache := none }

/-- Flattening of the block Hessian to the `(n*3, n*3)` ndarray in
`[x1, y1, z1, ..., xn, yn, zn]` ordering. -/
def hessianToNDArray (n : Nat)
    (H : (Fin n × Fin 3) → (Fin n × Fin 3) → Rat) : NDArray :=
  { shape := [n * 3, n * 3]
    data := (List.finRange n).flatMap fun i =>
      (List.finRange 3).flatMap fun a =>
        (List.finRange n).flatMap fun j =>
          (List.finRange 3).map fun b => H (i, a) (j, b) }

/-- The `compute_hessian` call issued by the `hessian` getter
(`compute_hessian(self._coord, self._ff, self._use_cell_list)`, i.e. with
no overrides). -/
def computeHessianND {n : Nat} (M : ANMModel n) : Except String NDArray := do
  let H ← compute_hessian M.coord M.ff M.use_cell_list M.cellAdj none none
  pure (hessianToNDArray n H)

/-- Embedding of the `hessian` getter: return the cache if set, otherwise
the pseudo-inverse of a cached covariance, otherwise compute from scratch;
the computed value is cached. -/
def hessianGet {n : Nat} (M : ANMModel n) (s : ANMState) :
    Except String (NDArray × ANMState) :=
  match s.hessian_cache with
  | some h => Except.ok (h, s)
  | none =>
    match s.covariance_cache with
    | some c =>
      let h := M.pinv c
      Except.ok (h, { s with hessian_cache := some h })
    | none => do
      let h ← computeHessianND M
      pure (h, { s with hessian_cache := some h })

/-- Embedding of the `covariance` getter: return the cache if set,
otherwise the pseudo-inverse of the Hessian (obtained through the
`hessian` getter); the computed value is cached. -/
def covarianceGet {n : Nat} (M : ANMModel n) (s : ANMState) :
    Except String (NDArray × ANMState) :=
  match s.covariance_cache with
  | some c => Except.ok (c, s)
  | none => do
    let (h, s1) ← hessianGet M s
    let c := M.pinv h
    pure (c, { s1 with covariance_cache := some c })

/-- Embedding of the `mass_weights` getter.  When the cache is empty it
collects each atom's residue mass three times (once per spatial dimension)
into a 1-D array of length `3n` and stores that; the `(3n, 3n)`
`mw_matrix` of square-root mass cross-products the source also builds in
this branch is discarded without effect (only `np.array(masses)` is
stored), so it is not modelled. -/
def massWeightsGet {n : Nat} (M : ANMModel n) (s : ANMState) :
    NDArray × ANMState :=
  match s.mw_cache with
  | some w => (w, s)
  | none =>
    let masses : List Rat :=
      (List.finRange n).flatMap fun i => [M.resMass i, M.resMass i, M.resMass i]
    let w : NDArray := { shape := [3 * n], data := masses }
    (w, { s with mw_cache := some w })

/-- The getter body shared by the effective `hessian_mw` and
`covariance_mw` properties.  In the source,
`@covariance_mw.setter def hessian_mw(self, value)` rebinds the class
attribute `hessian_mw` to `property(fget of covariance_mw, that setter)`,
shadowing the earlier `hessian_mw` property entirely.  Hence reading
either attribute runs the `covariance_mw` getter: when `_covariance_mw` is
`None` its body evaluates `self.hessian_mw`, which re-enters the very same
getter with unchanged state — unbounded recursion, surfacing as Python's
`RecursionError`; when `_covariance_mw` is set the body falls through
without a `return` statement and yields `None` (`Option.none` here, the
first component being the Python return value). -/
def covarianceMwGetterBody (s : ANMState) :
    Except String (Option NDArray × ANMState) :=
  match s.covariance_mw_cache with
  | some _ => Except.ok (none, s)
  | none => Except.error "RecursionError: maximum recursion depth exceeded"

/-- Embedding of reading `model.hessian_mw` (dispatches to the rebound
property, see `covarianceMwGetterBody`). -/
def hessianMwGet (s : ANMState) : Except String (Option NDArray × ANMState) :=
  covarianceMwGetterBody s

/-- Embedding of reading `model.covariance_mw`. -/
def covarianceMwGet (s : ANMState) :
    Except String (Option NDArray × ANMState) :=
  covarianceMwGetterBody s

/-- Matrix–vector product `np.dot` for a 2-D array and a flat vector. -/
def matVec (c : NDArray) (v : List Rat) : List Rat :=
  let rows := c.shape.headD 0
  let cols := (c.shape.drop 1).headD 0
  (List.range rows).map fun i =>
    ∑ j ∈ Finset.range cols, c.data.getD (i * cols + j) 0 * v.getD j 0

/-- Embedding of `linear_response`: a 2-D force must have shape `(n, 3)`
and is flattened (C order, so the data list is unchanged), a 1-D force
must have length `3n`, anything else is rejected; the result is
`covariance · force` reshaped to `(n, 3)`. -/
def linear_response {n : Nat} (M : ANMModel n) (s : ANMState)
    (force : NDArray) : Except String (NDArray × ANMState) := do
  let flat : List Rat ←
    if force.shape.length = 2 then
      if force.shape = [n, 3] then pure force.data
      else Except.error "ValueError: unexpected force shape"
    else if force.shape.length = 1 then
      if force.shape.headD 0 = n * 3 then pure force.data
      else Except.error "ValueError: unexpected force length"
    else Except.error "ValueError: expected 1D or 2D array"
  let (cov, s1) ← covarianceGet M s
  pure ({ shape := [n, 3], data := matVec cov flat }, s1)

/-- A one-atom model with simple external capabilities, used as concrete
input for the model-state claims. -/
def demoModel : ANMModel 1 :=
  { coord := fun _ => ![0, 0, 0]
    ff := ⟨none, none, fun _ _ _ => 1⟩
    use_cell_list := true
    cellAdj := fun _ _ => false
    resMass := fun _ => 2
    pinv := fun a => a }

/-- A `(3, 3)` identity-like matrix value. -/
def mat3x3 : NDArray := ⟨[3, 3], [1, 0, 0, 0, 1, 0, 0, 0, 1]⟩

/-- A second, distinct `(3, 3)` matrix value. -/
def mat3x3' : NDArray := ⟨[3, 3], [2, 2, 2, 2, 2, 2, 2, 2, 2]⟩

/-- A wrongly-shaped array. -/
def badArr : NDArray := ⟨[2], [0, 0]⟩

/-- A state holding a cached Hessian. -/
def stateWithHessian : ANMState := { initState with hessian_cache := some mat3x3 }

/-- A state holding a (stale) cached covariance. -/
def stateWithCov : ANMState := { initState with covariance_cache := some mat3x3' }

/-- A state holding a cached `_covariance_mw` value. -/
def stateWithCovMw : ANMState :=
  { initState with covariance_mw_cache := some mat3x3 }

/-- A state whose mass-weights cache was populated through the setter
with a `(3, 3)` matrix. -/
def stateWithMw : ANMState := { initState with mw_cache := some mat3x3 }

/-- C2 counterexample: on a model with a cached Hessian, assigning a
`(3, 3)` covariance clears the cached Hessian — the claim says the
covariance setter leaves the cached Hessian unchanged. -/
theorem C2_covariance_setter_clears_hessian_counterexample :
    stateWithHessian.hessian_cache = some mat3x3 ∧
    covarianceSet 1 mat3x3' stateWithHessian
      = Except.ok { initState with covariance_cache := some mat3x3' } ∧
    ({ initState with covariance_cache := some mat3x3' } : ANMState).hessian_cache
      = none :=
  ⟨rfl, rfl, rfl⟩

/-- C2 (amended): cache invalidation between `hessian` and `covariance`
is reciprocal: assigning a covariance stores it and invalidates the cached
Hessian (`self._hessian = None` in the covariance setter), exactly as
assigning a Hessian invalidates the cached covariance. -/
theorem C2_reciprocal_invalidation (n : Nat) (s : ANMState) (v : NDArray)
    (hshape : v.shape = [n * 3, n * 3]) :
    covarianceSet n v s = Except.ok
      { s with covariance_cache := some v, hessian_cache := none } ∧
    hessianSet n v s = Except.ok
      { s with hessian_cache := some v, covariance_cache := none } := by
  constructor <;>
    simp [covarianceSet, hessianSet, shapeCheck, hshape, Bind.bind,
      Except.bind, pure, Except.pure]

/-- C2 witness: `C2_reciprocal_invalidation` on a concrete one-atom state
with a cached Hessian. -/
theorem C2_reciprocal_invalidation_witness :
    mat3x3'.shape = [1 * 3, 1 * 3] ∧
    (covarianceSet 1 mat3x3' stateWithHessian = Except.ok
      { stateWithHessian with covariance_cache := some mat3x3'
                              hessian_cache := none } ∧
    hessianSet 1 mat3x3' stateWithHessian = Except.ok
      { stateWithHessian with hessian_cache := some mat3x3'
                              covariance_cache := none }) :=
  ⟨rfl, C2_reciprocal_invalidation 1 stateWithHessian mat3x3' rfl⟩

/-- C5: setting the Hessian stores the value unchanged; reading it back
returns exactly that value, and a subsequent covariance read returns the
pseudo-inverse of the new Hessian (any previously cached covariance was
dropped by the setter). -/
theorem C5_hessian_roundtrip {n : Nat} (M : ANMModel n) (s : ANMState)
    (H : NDArray) (hshape : H.shape = [n * 3, n * 3]) :
    ∃ s1, hessianSet n H s = Except.ok s1
      ∧ hessianGet M s1 = Except.ok (H, s1)
      ∧ covarianceGet M s1 = Except.ok (M.pinv H,
          { s1 with covariance_cache := some (M.pinv H) }) := by
  refine ⟨{ s with hessian_cache := some H, covariance_cache := none },
    ?_, ?_, ?_⟩
  · simp [hessianSet, shapeCheck, hshape, Bind.bind, Except.bind, pure,
      Except.pure]
  · rfl
  · rfl

/-- C5 witness: `C5_hessian_roundtrip` on a one-atom model holding a stale
cached covariance. -/
theorem C5_hessian_roundtrip_witness :
    mat3x3.shape = [1 * 3, 1 * 3] ∧
    ∃ s1, hessianSet 1 mat3x3 stateWithCov = Except.ok s1
      ∧ hessianGet demoModel s1 = Except.ok (mat3x3, s1)
      ∧ covarianceGet demoModel s1 = Except.ok (demoModel.pinv mat3x3,
          { s1 with covariance_cache := some (demoModel.pinv mat3x3) }) :=
  ⟨rfl, C5_hessian_roundtrip demoModel stateWithCov mat3x3 rfl⟩

/-- C8 counterexample: on a fresh model, reading `hessian_mw` (or
`covariance_mw`) does not return `None` — it fails with a recursion error,
because both accessors dispatch to the `covariance_mw` getter, whose body
re-reads `self.hessian_mw`, i.e. itself. -/
theorem C8_getters_raise_counterexample :
    hessianMwGet initState
      = Except.error "RecursionError: maximum recursion depth exceeded" ∧
    covarianceMwGet initState
      = Except.error "RecursionError: maximum recursion depth exceeded" :=
  ⟨rfl, rfl⟩

/-- C8 (amended): the mass-weighted matrices are never observable through
the accessors, but not uniformly as `None`: the `hessian_mw` setter
decorator `@covariance_mw.setter def hessian_mw` rebinds the `hessian_mw`
property, so both `hessian_mw` and `covariance_mw` reads run the
`covariance_mw` getter; a successful read always yields Python `None`
with the state unchanged (the getter has no `return` statement), and with
an empty `_covariance_mw` cache the read fails with a `RecursionError`
(the getter body reads `self.hessian_mw`, which is itself). -/
theorem C8_mass_weighted_never_observable (s : ANMState) :
    hessianMwGet s = covarianceMwGet s
    ∧ (∀ out s', hessianMwGet s = Except.ok (out, s') →
        out = none ∧ s' = s)
    ∧ (s.covariance_mw_cache = none →
        hessianMwGet s
          = Except.error "RecursionError: maximum recursion depth exceeded") := by
  refine ⟨rfl, ?_, ?_⟩
  · intro out s' h
    unfold hessianMwGet covarianceMwGetterBody at h
    cases hc : s.covariance_mw_cache with
    | none => rw [hc] at h; exact absurd h (by simp)
    | some v =>
      rw [hc] at h
      simp only [Except.ok.injEq, Prod.mk.injEq] at h
      exact ⟨h.1.symm, h.2.symm⟩
  · intro h
    unfold hessianMwGet covarianceMwGetterBody
    rw [h]

/-- C8 witness: both hypothesised branches of
`C8_mass_weighted_never_observable` realised on concrete states. -/
theorem C8_mass_weighted_never_observable_witness :
    hessianMwGet initState
      = Except.error "RecursionError: maximum recursion depth exceeded"
    ∧ ((none : Option NDArray) = none ∧ stateWithCovMw = stateWithCovMw) :=
  ⟨(C8_mass_weighted_never_observable initState).2.2 rfl,
   (C8_mass_weighted_never_observable stateWithCovMw).2.1 none stateWithCovMw rfl⟩

/-- C9 counterexample: the mass-weights round trip does NOT fail for every
model: on a model whose `_mass_weights` cache was populated through the
setter with a `(3, 3)` matrix, the getter returns that 2-D matrix and
assigning it back succeeds. -/
theorem C9_roundtrip_succeeds_counterexample :
    (massWeightsGet demoModel stateWithMw).1 = mat3x3 ∧
    (massWeightsSet 1 (massWeightsGet demoModel stateWithMw).1
      stateWithMw).isOk = true :=
  ⟨rfl, rfl⟩

/-- C9 (amended): for every model whose mass-weights cache is unset (so
the getter computes it), the getter returns a one-dimensional array of
length `3n`, and assigning the getter's own output back to the property
fails the setter's `(3n, 3n)` shape validation. -/
theorem C9_mass_weights_roundtrip_fails {n : Nat} (M : ANMModel n)
    (s : ANMState) (h : s.mw_cache = none) :
    (massWeightsGet M s).1.shape = [3 * n]
    ∧ (massWeightsSet n (massWeightsGet M s).1
        (massWeightsGet M s).2).isOk = false := by
  unfold massWeightsGet
  rw [h]
  refine ⟨rfl, ?_⟩
  have hne : ¬ ([3 * n] : List Nat) = [n * 3, n * 3] := by simp
  simp [massWeightsSet, shapeCheck, hne, Bind.bind, Except.bind,
    Except.isOk, Except.toBool]

/-- C9 witness: `C9_mass_weights_roundtrip_fails` on a fresh one-atom
model. -/
theorem C9_mass_weights_roundtrip_fails_witness :
    (massWeightsGet demoModel initState).1.shape = [3 * 1]
    ∧ (massWeightsSet 1 (massWeightsGet demoModel initState).1
        (massWeightsGet demoModel initState).2).isOk = false :=
  C9_mass_weights_roundtrip_fails demoModel initState rfl

/-- C10: every reachable setter of the model (`hessian`, `covariance`,
`mass_weights` and the effective mass-weighted setter) validates the
assigned shape against `(3n, 3n)` before storing anything: on mismatch it
raises, and no cached quantity has been touched (the embedding returns no
successor state, matching a Python raise before any attribute store). -/
theorem C10_setters_atomic_on_failure (n : Nat) (s : ANMState)
    (v : NDArray) (hshape : v.shape ≠ [n * 3, n * 3]) :
    hessianSet n v s = Except.error "IndexError: expected shape (3n, 3n)"
    ∧ covarianceSet n v s = Except.error "IndexError: expected shape (3n, 3n)"
    ∧ massWeightsSet n v s = Except.error "IndexError: expected shape (3n, 3n)"
    ∧ hessianMwSet n v s = Except.error "IndexError: expected shape (3n, 3n)" := by
  refine ⟨?_, ?_, ?_, ?_⟩ <;>
    simp [hessianSet, covarianceSet, massWeightsSet, hessianMwSet,
      shapeCheck, hshape, Bind.bind, Except.bind]

/-- C10 witness: `C10_setters_atomic_on_failure` on a wrongly-shaped
array. -/
theorem C10_setters_atomic_on_failure_witness :
    badArr.shape ≠ [1 * 3, 1 * 3] ∧
    (hessianSet 1 badArr initState
        = Except.error "IndexError: expected shape (3n, 3n)"
      ∧ covarianceSet 1 badArr initState
        = Except.error "IndexError: expected shape (3n, 3n)"
      ∧ massWeightsSet 1 badArr initState
        = Except.error "IndexError: expected shape (3n, 3n)"
      ∧ hessianMwSet 1 badArr initState
        = Except.error "IndexError: expected shape (3n, 3n)") :=
  ⟨by decide, C10_setters_atomic_on_failure 1 initState badArr (by decide)⟩

/-- C7: `linear_response` treats an `(n, 3)` force and its flattened
`(3n,)` form identically (C-order flattening leaves the data list
unchanged), and every other shape or dimensionality is rejected with a
`ValueError`. -/
theorem C7_linear_response_shapes {n : Nat} (M : ANMModel n)
    (s : ANMState) :
    (∀ f : NDArray, f.shape = [n, 3] →
      linear_response M s f
        = linear_response M s { shape := [n * 3], data := f.data })
    ∧ (∀ f : NDArray, f.shape ≠ [n, 3] → f.shape ≠ [n * 3] →
      (linear_response M s f).isOk = false) := by
  constructor
  · intro f hf
    simp [linear_response, hf]
  · intro f h2 h1
    cases hs : f.shape with
    | nil =>
      simp [linear_response, hs, Bind.bind, Except.bind, Except.isOk,
        Except.toBool]
    | cons a t =>
      cases t with
      | nil =>
        have ha : ¬ a = n * 3 := fun hh => h1 (by rw [hs, hh])
        simp [linear_response, hs, ha, Bind.bind, Except.bind, Except.isOk,
          Except.toBool]
      | cons b t2 =>
        cases t2 with
        | nil =>
          have hab : ¬ ([a, b] : List Nat) = [n, 3] :=
            fun hh => h2 (by rw [hs, hh])
          simp [linear_response, hs, hab, Bind.bind, Except.bind,
            Except.isOk, Except.toBool]
        | cons c t3 =>
          simp [linear_response, hs, Bind.bind, Except.bind, Except.isOk,
            Except.toBool]

/-- Concrete `(1, 3)` force for the C7 witness. -/
def force2d : NDArray := ⟨[1, 3], [1, 2, 3]⟩

/-- C7 witness: `C7_linear_response_shapes` on a one-atom model, with a
well-shaped 2-D force and a wrongly-shaped force. -/
theorem C7_linear_response_shapes_witness :
    (linear_response demoModel initState force2d
      = linear_response demoModel initState ⟨[1 * 3], force2d.data⟩)
    ∧ (linear_response demoModel initState badArr).isOk = false :=
  ⟨(C7_linear_response_shapes demoModel initState).1 force2d rfl,
   (C7_linear_response_shapes demoModel initState).2 badArr
     (by decide) (by decide)⟩

/-- A real 3-vector; the sinusoidal arithmetic of `normal_mode` is
transcendental, so this part of the model uses `ℝ`. -/
abbrev V3R := Fin 3 → ℝ

/-- Euclidean length of a 3-vector
(`np.sqrt(np.sum(mode_vectors**2, axis=-1))` per atom). -/
noncomputable def vecLen (v : V3R) : ℝ := Real.sqrt (∑ a, v a ^ 2)

/-- The reduction `np.max(vector_lenghts)` over the per-atom mode
vectors. -/
noncomputable def maxVecLen {n : Nat} [NeZero n] (mv : Fin n → V3R) : ℝ :=
  Finset.univ.sup' Finset.univ_nonempty fun i => vecLen (mv i)

/-- The rescaling step `mode_vectors *= amplitude / np.max(vector_lenghts)`. -/
noncomputable def scaledModeVectors {n : Nat} [NeZero n] (mv : Fin n → V3R)
    (amplitude : ℝ) : Fin n → V3R :=
  fun i a => amplitude / maxVecLen mv * mv i a

/-- Embedding of `ANM.normal_mode` from the point where the selected
eigenvector has been reshaped into per-atom vectors (`self.eigen()` wraps
the external `np.linalg.eigh`, so `mode_vectors` — one eigenvector row
reshaped to `(n, 3)` — is taken as input here).  The time grid is
`np.linspace(0, 1, frames, endpoint=False)`, i.e. `k / frames`; the field
`movement` selects the sinusoidal or the triangular profile and anything
else is rejected. -/
noncomputable def normal_mode {n : Nat} [NeZero n]
    (mode_vectors : Fin n → V3R) (amplitude : ℝ) (frames : Nat)
    (movement : String) : Except String (Fin frames → Fin n → V3R) :=
  if movement = "sine" then
    Except.ok fun k i a =>
      Real.sin ((k.val : ℝ) / (frames : ℝ) * (2 * Real.pi))
        * scaledModeVectors mode_vectors amplitude i a
  else if movement = "triangle" then
    Except.ok fun k i a =>
      (2 * |2 * ((k.val : ℝ) / (frames : ℝ)
          - (Int.floor ((k.val : ℝ) / (frames : ℝ) + 1 / 2) : ℝ))| - 1)
        * scaledModeVectors mode_vectors amplitude i a
  else Except.error "ValueError: movement is unknown"

/-- Maximum per-atom displacement magnitude over all frames of a
displacement sequence. -/
noncomputable def maxDispMag {frames n : Nat} [NeZero frames] [NeZero n]
    (disp : Fin frames → Fin n → V3R) : ℝ :=
  Finset.univ.sup' Finset.univ_nonempty
    fun p : Fin frames × Fin n => vecLen (disp p.1 p.2)

/-- Maximum displacement magnitude of a `normal_mode` run (`0` for a
failed run). -/
noncomputable def maxDispOfRun {frames n : Nat} [NeZero frames] [NeZero n]
    (r : Except String (Fin frames → Fin n → V3R)) : ℝ :=
  match r with
  | Except.ok d => maxDispMag d
  | Except.error _ => 0

/-- Scaling a 3-vector scales its length by the absolute factor. -/
theorem vecLen_smul (c : ℝ) (v : V3R) :
    vecLen (fun a => c * v a) = |c| * vecLen v := by
  unfold vecLen
  have h : ∑ a, (c * v a) ^ 2 = c ^ 2 * ∑ a, v a ^ 2 := by
    rw [Finset.mul_sum]
    exact Finset.sum_congr rfl fun a _ => by ring
  rw [h, Real.sqrt_mul (sq_nonneg c), Real.sqrt_sq_eq_abs]

/-- Vector lengths are nonnegative. -/
theorem vecLen_nonneg (v : V3R) : 0 ≤ vecLen v := Real.sqrt_nonneg _

/-- Every per-atom length is at most the maximum. -/
theorem le_maxVecLen {n : Nat} [NeZero n] (mv : Fin n → V3R) (i : Fin n) :
    vecLen (mv i) ≤ maxVecLen mv := by
  unfold maxVecLen
  exact Finset.le_sup' (fun j => vecLen (mv j)) (Finset.mem_univ i)

/-- Unfolding equation of `maxDispOfRun` for a successful run. -/
theorem maxDispOfRun_ok {frames n : Nat} [NeZero frames] [NeZero n]
    (d : Fin frames → Fin n → V3R) :
    maxDispOfRun (Except.ok d) = maxDispMag d := rfl

/-- The sampled phases `π k / 5` of a ten-frame sine sweep never hit an
odd multiple of `π / 2` (parity: `2k` is even, `5(2m+1)` is odd). -/
theorem cos_pi_nat_div_five_ne_zero (k : ℕ) :
    Real.cos (Real.pi * k / 5) ≠ 0 := by
  intro h
  obtain ⟨m, hm⟩ := Real.cos_eq_zero_iff.mp h
  have h2 : ((2 * k : ℤ) : ℝ) * Real.pi
      = ((5 * (2 * m + 1) : ℤ) : ℝ) * Real.pi := by
    push_cast
    linear_combination 10 * hm
  have h4 : (2 * k : ℤ) = 5 * (2 * m + 1) := by
    exact_mod_cast mul_right_cancel₀ Real.pi_ne_zero h2
  omega

/-- Away from the zeros of the cosine the sine stays strictly below one in
magnitude. -/
theorem abs_sin_lt_one_of_cos_ne_zero (x : ℝ) (h : Real.cos x ≠ 0) :
    |Real.sin x| < 1 := by
  have h1 := Real.sin_sq_add_cos_sq x
  have h2 : 0 < Real.cos x ^ 2 :=
    lt_of_le_of_ne (sq_nonneg _) (Ne.symm (pow_ne_zero 2 h))
  exact (sq_lt_one_iff_abs_lt_one (Real.sin x)).mp (by nlinarith)

/-- Core fact behind C6: a ten-frame sine run at amplitude `1` succeeds,
and its maximum per-atom displacement magnitude stays strictly below the
amplitude, because no sampled time `k/10` reaches the sine extremum. -/
theorem sine_run_max_lt_amplitude {n : Nat} [NeZero n]
    (mv : Fin n → V3R) (hM : 0 < maxVecLen mv) :
    (normal_mode mv 1 10 "sine").isOk = true
    ∧ maxDispOfRun (normal_mode mv 1 10 "sine") < 1 := by
  have hsine : normal_mode mv 1 10 "sine" = Except.ok fun k i a =>
      Real.sin ((k.val : ℝ) / ((10 : ℕ) : ℝ) * (2 * Real.pi))
        * scaledModeVectors mv 1 i a := by
    unfold normal_mode
    rw [if_pos rfl]
  rw [hsine]
  refine ⟨rfl, ?_⟩
  rw [maxDispOfRun_ok]
  unfold maxDispMag
  rw [Finset.sup'_lt_iff]
  intro p _
  dsimp only
  rw [vecLen_smul]
  have hb : vecLen (scaledModeVectors mv 1 p.2) ≤ 1 := by
    have hdef : scaledModeVectors mv 1 p.2
        = fun a => 1 / maxVecLen mv * mv p.2 a := rfl
    rw [hdef, vecLen_smul,
      abs_of_nonneg (le_of_lt (by positivity : (0 : ℝ) < 1 / maxVecLen mv)),
      div_mul_eq_mul_div, one_mul, div_le_one hM]
    exact le_maxVecLen mv p.2
  have harg : (p.1.val : ℝ) / ((10 : ℕ) : ℝ) * (2 * Real.pi)
      = Real.pi * (p.1.val : ℝ) / 5 := by
    push_cast
    ring
  rw [harg]
  exact lt_of_le_of_lt
    (mul_le_of_le_one_right (abs_nonneg _) hb)
    (abs_sin_lt_one_of_cos_ne_zero _ (cos_pi_nat_div_five_ne_zero p.1.val))

/-- Mode-vector input for the C6 concrete runs: one atom with a unit
vector. -/
noncomputable def mv1 : Fin 1 → V3R := fun _ a => if a = 0 then 1 else 0

/-- The single vector of `mv1` has unit length. -/
theorem vecLen_mv1 (i : Fin 1) : vecLen (mv1 i) = 1 := by
  unfold vecLen mv1
  rw [Fin.sum_univ_three]
  norm_num [Fin.ext_iff]

/-- The maximum mode-vector length of `mv1` is one. -/
theorem maxVecLen_mv1 : maxVecLen mv1 = 1 := by
  apply le_antisymm
  · unfold maxVecLen
    rw [Finset.sup'_le_iff]
    intro i _
    exact le_of_eq (vecLen_mv1 i)
  · calc (1 : ℝ) = vecLen (mv1 0) := (vecLen_mv1 0).symm
    _ ≤ maxVecLen mv1 := le_maxVecLen mv1 0

/-- C6 counterexample: on a one-atom model with a unit mode vector,
`normal_mode(index, amplitude=1.0, frames=10, movement="sine")` yields a
sequence whose maximum per-atom displacement magnitude is NOT `1.0` (it is
`sin(2π/5) ≈ 0.951`): the ten sampled times `k/10` miss the sine peak at
`t = 1/4`. -/
theorem C6_sine_max_ne_amplitude_counterexample :
    (normal_mode mv1 1 10 "sine").isOk = true
    ∧ maxDispOfRun (normal_mode mv1 1 10 "sine") ≠ 1 := by
  have h := sine_run_max_lt_amplitude mv1 (by rw [maxVecLen_mv1]; norm_num)
  exact ⟨h.1, ne_of_lt h.2⟩

/-- C6 (amended): for every model with a non-zero selected eigenvector,
the ten-frame sine sequence at amplitude `1.0` is produced successfully,
but its maximum per-atom displacement magnitude is strictly less than the
amplitude (the sampled grid `k/10` never reaches the sine extremum), not
equal to it. -/
theorem C6_normal_mode_max_below_amplitude {n : Nat} [NeZero n]
    (mode_vectors : Fin n → V3R) (hM : 0 < maxVecLen mode_vectors) :
    (normal_mode mode_vectors 1 10 "sine").isOk = true
    ∧ maxDispOfRun (normal_mode mode_vectors 1 10 "sine") < 1 :=
  sine_run_max_lt_amplitude mode_vectors hM

/-- C6 witness: `C6_normal_mode_max_below_amplitude` on the one-atom unit
mode vector. -/
theorem C6_normal_mode_max_below_amplitude_witness :
    0 < maxVecLen mv1
    ∧ ((normal_mode mv1 1 10 "sine").isOk = true
      ∧ maxDispOfRun (normal_mode mv1 1 10 "sine") < 1) :=
  ⟨by rw [maxVecLen_mv1]; norm_num,
   C6_normal_mode_max_below_amplitude mv1 (by rw [maxVecLen_mv1]; norm_num)⟩

end Springcraft
